import Mathlib

/-!
Shallow embedding of the vocab-trainer core (answer matcher, Leitner
scheduler, session engine) together with proofs about the claims of its
specification.  Strings are modelled as `List Char`; JavaScript numbers on
the code paths embedded here are non-negative integers, modelled as `Nat`
(`Math.round` of an exact non-negative rational `n / m` is modelled as
`(2 * n + m) / (2 * m)` in integer arithmetic).
-/

namespace VocabTrainer

/-! ## Answer matcher (`server/services/validator.js`) -/

/-- The fixed Turkish-to-ASCII substitution table (`TURKISH_CHAR_MAP`),
as a function on single characters; characters not in the table are kept. -/
def turkishCharMap (c : Char) : Char :=
  if c = 'ç' then 'c' else if c = 'Ç' then 'C'
  else if c = 'ğ' then 'g' else if c = 'Ğ' then 'G'
  else if c = 'ı' then 'i' else if c = 'İ' then 'I'
  else if c = 'ö' then 'o' else if c = 'Ö' then 'O'
  else if c = 'ş' then 's' else if c = 'Ş' then 'S'
  else if c = 'ü' then 'u' else if c = 'Ü' then 'U'
  else c

/-- `normalizeTurkish`: map every character through the substitution table. -/
def normalizeTurkish (s : List Char) : List Char :=
  s.map turkishCharMap

/-- JavaScript `String.prototype.toLowerCase` on the alphabet this program
uses: ASCII lowercasing extended with the Turkish capitals of the
substitution table.  (The dotted capital `İ`, which JavaScript lowercases to
a two-character combining sequence, is left unchanged; the substitution
table folds it directly.) -/
def jsToLower (c : Char) : Char :=
  if c = 'Ç' then 'ç' else if c = 'Ğ' then 'ğ' else if c = 'Ö' then 'ö'
  else if c = 'Ş' then 'ş' else if c = 'Ü' then 'ü' else c.toLower

/-- JavaScript `String.prototype.trim`: drop whitespace from both ends. -/
def jsTrim (s : List Char) : List Char :=
  ((s.dropWhile Char.isWhitespace).reverse.dropWhile Char.isWhitespace).reverse

/-- Replace every hyphen by a space (the first `.replace` in the source). -/
def hyphensToSpaces (s : List Char) : List Char :=
  s.map (fun c => if c = '-' then ' ' else c)

/-- Helper for `collapseSpaces`: the flag records whether the previous
character was whitespace (already emitted as a single space). -/
def collapseSpacesAux : Bool → List Char → List Char
  | _, [] => []
  | prevSpace, c :: cs =>
    if c.isWhitespace then
      if prevSpace then collapseSpacesAux true cs
      else ' ' :: collapseSpacesAux true cs
    else c :: collapseSpacesAux false cs

/-- Collapse every maximal run of whitespace to a single space
(the second `.replace` in the source). -/
def collapseSpaces (s : List Char) : List Char :=
  collapseSpacesAux false s

/-- `normalizeForComparison`: lowercase, trim, fold Turkish characters,
hyphens to spaces, collapse whitespace runs. -/
def normalizeForComparison (s : List Char) : List Char :=
  collapseSpaces (hyphensToSpaces (normalizeTurkish (jsTrim (s.map jsToLower))))

/-- `stripToPrefix` in the source: trim, and if the lowercased string starts
with the three characters of the infinitive marker, drop them. -/
def stripTo (s : List Char) : List Char :=
  let trimmed := jsTrim s
  if (trimmed.map jsToLower).take 3 = ['t', 'o', ' '] then
    trimmed.drop 3
  else
    trimmed

/-- Fuelled form of the Levenshtein recurrence; the fuel only makes the
recursion structural and is provably irrelevant once it is at least the sum
of the lengths (`levenshteinDistanceFuel_congr`). -/
def levenshteinDistanceFuel : Nat → List Char → List Char → Nat
  | fuel, xs, ys =>
    match xs, ys with
    | [], ys => ys.length
    | _ :: xs, [] => xs.length + 1
    | x :: xs, y :: ys =>
      match fuel with
      | 0 => 0
      | fuel + 1 =>
        min (levenshteinDistanceFuel fuel xs (y :: ys) + 1)
          (min (levenshteinDistanceFuel fuel (x :: xs) ys + 1)
            (levenshteinDistanceFuel fuel xs ys + (if x = y then 0 else 1)))

/-- `levenshteinDistance`: the dynamic-programming table of the source
computes exactly the recurrence `dp[i][j] = min(deletion, insertion,
substitution)`; it is embedded here through its defining recurrence. -/
def levenshteinDistance (xs ys : List Char) : Nat :=
  levenshteinDistanceFuel (xs.length + ys.length) xs ys

/-- `ValidationResult` from the source. -/
inductive ValidationResult where
  | correct
  | almost
  | incorrect
deriving DecidableEq, Repr

/-- `calculateAccuracy`: 0 for an empty correct answer, else
`Math.round(((maxLen - distance) / maxLen) * 100)` with
`maxLen = max(len(user), len(correct))`, as exact integer arithmetic. -/
def calculateAccuracy (userAnswer correctAnswer : List Char) : Nat :=
  if correctAnswer.length = 0 then 0
  else
    let distance := levenshteinDistance userAnswer correctAnswer
    let maxLen := max userAnswer.length correctAnswer.length
    if maxLen = 0 then 100
    else (200 * (maxLen - distance) + maxLen) / (2 * maxLen)

/-- `isAlmostCorrect`: at least 75% accuracy, at least one correct character
(`max(correctAnswer.length - distance, 0) >= 1`), and a positive distance. -/
def isAlmostCorrect (userAnswer correctAnswer : List Char) : Bool :=
  if userAnswer.isEmpty ∨ correctAnswer.isEmpty then false
  else
    let accuracy := calculateAccuracy userAnswer correctAnswer
    let distance := levenshteinDistance userAnswer correctAnswer
    let correctChars := correctAnswer.length - distance
    decide (75 ≤ accuracy ∧ 1 ≤ correctChars ∧ 0 < distance)

/-- `validateAnswer userAnswer correctAnswer isVerb`: normalization, the
verb variant with the infinitive marker stripped, exact match, then the
almost-correct check. -/
def validateAnswer (userAnswer correctAnswer : List Char) (isVerb : Bool) :
    ValidationResult :=
  let normalizedUser := normalizeForComparison userAnswer
  let normalizedCorrect := normalizeForComparison correctAnswer
  if isVerb then
    let userWithoutTo := normalizeForComparison (stripTo userAnswer)
    let correctWithoutTo := normalizeForComparison (stripTo correctAnswer)
    if userWithoutTo = correctWithoutTo ∨ normalizedUser = normalizedCorrect then
      .correct
    else
      let distWithTo := levenshteinDistance normalizedUser normalizedCorrect
      let distWithoutTo := levenshteinDistance userWithoutTo correctWithoutTo
      let nu := if distWithoutTo < distWithTo then userWithoutTo else normalizedUser
      let nc := if distWithoutTo < distWithTo then correctWithoutTo else normalizedCorrect
      if nu = nc then .correct
      else if isAlmostCorrect nu nc then .almost
      else .incorrect
  else
    if normalizedUser = normalizedCorrect then .correct
    else if isAlmostCorrect normalizedUser normalizedCorrect then .almost
    else .incorrect

/-! ## Leitner scheduler basics (`server/services/leitner.js`, multi-user) -/

/-- A question direction. -/
inductive Direction where
  | en_to_tr
  | tr_to_en
deriving DecidableEq, Repr

/-- One row of the `progress` table (per user, word and direction), as the
scheduler queries see it. -/
structure ProgressRow where
  id : Nat
  userId : Nat
  wordId : Nat
  direction : Direction
  leitnerBox : Nat
  timesAsked : Nat
  timesCorrect : Nat
  lastAsked : Option Nat
  firstLearned : Option Nat
  sessionCounter : Nat
deriving DecidableEq, Repr

/-- `getNewBox`: correct moves up capped at 5, incorrect resets to 1. -/
def getNewBox (currentBox : Nat) (isCorrect : Bool) : Nat :=
  if isCorrect then min (currentBox + 1) 5 else 1

/-- The JavaScript lookup `boxIntervals[box] || 1`: a missing or zero
interval falls back to 1. -/
def boxIntervalOrDefault (boxIntervals : Nat → Nat) (box : Nat) : Nat :=
  if boxIntervals box = 0 then 1 else boxIntervals box

/-- `isWordDueForReview word boxIntervals`: box 0 is never due; interval 1
means due every session; otherwise due when the session counter is
divisible by the interval. -/
def isWordDueForReview (word : ProgressRow) (boxIntervals : Nat → Nat) : Bool :=
  if word.leitnerBox = 0 then false
  else
    let interval := boxIntervalOrDefault boxIntervals word.leitnerBox
    if interval = 1 then true
    else decide (word.sessionCounter % interval = 0)

/-- The default box intervals resolved by `getBoxIntervals` when no setting
is stored (defaults 1, 1, 1, 8, 16). -/
def getBoxIntervalsDefault : Nat → Nat
  | 1 => 1
  | 2 => 1
  | 3 => 1
  | 4 => 8
  | 5 => 16
  | _ => 0


/-! ## Scheduler state and queries (`server/db/database.js`,
`server/services/leitner.js`, multi-user revisions) -/

/-- A row of the shared `words` table. -/
structure Word where
  id : Nat
  english : List Char
  turkish : List Char
  category : String
  exampleSentence : Option String
  createdAt : Nat
deriving DecidableEq, Repr

/-- A progress row joined with its word, as produced by the
`SELECT p.*, w.english, w.turkish, w.category, w.example_sentence` queries. -/
structure JoinedRow where
  p : ProgressRow
  w : Word
deriving DecidableEq, Repr

/-- The database state the scheduler reads and writes. -/
structure Db where
  words : List Word
  progress : List ProgressRow
  nextProgressId : Nat
deriving DecidableEq, Repr

/-- Tunable settings, resolved from the settings store with their defaults
(`quick_lesson_count` 5, `weak_words_count` 5, box intervals 1, 1, 1, 8, 16). -/
structure Config where
  quick : Nat
  weakWords : Nat
  boxIntervals : Nat → Nat

/-- The settings defaults. -/
def defaultConfig : Config :=
  ⟨5, 5, getBoxIntervalsDefault⟩

/-- The randomness the scheduler consumes, surfaced as parameters:
`shuffle` stands for the Fisher-Yates `shuffleArray`, `randOrder` for SQL
`ORDER BY RANDOM()`, `masteredGate` for `Math.random() < chance`, and
`masteredIndex` for the random index into the mastered list.  Theorems that
need it assume `shuffle` permutes its input; concrete runs use `idOracle`. -/
structure Oracle where
  shuffle : List JoinedRow → List JoinedRow
  randOrder : List Nat → List Nat
  masteredGate : Bool
  masteredIndex : Nat

/-- The oracle whose random choices are all trivial. -/
def idOracle : Oracle :=
  ⟨id, id, false, 0⟩

/-- The session types the selection distinguishes. -/
inductive SessionType where
  | quick
  | weak_words
  | review_mastered
  | category
deriving DecidableEq, Repr

/-- Insert into a sorted list, keeping existing order among equals. -/
def insertLe {α : Type} (le : α → α → Bool) (x : α) : List α → List α
  | [] => [x]
  | y :: ys => if le y x then y :: insertLe le x ys else x :: y :: ys

/-- Insertion sort by a boolean comparison; models the (unspecified-on-ties)
orderings of SQL `ORDER BY` and JavaScript `Array.prototype.sort`. -/
def sortByLe {α : Type} (le : α → α → Bool) (l : List α) : List α :=
  l.foldr (insertLe le) []

/-- SQLite ascending comparison on a nullable column: NULL sorts first. -/
def optLe (a b : Option Nat) : Bool :=
  match a, b with
  | none, _ => true
  | some _, none => false
  | some x, some y => x ≤ y

/-- The SQL join of progress rows with the `words` table on `word_id`. -/
def joinWords (db : Db) (rows : List ProgressRow) : List JoinedRow :=
  rows.filterMap (fun p =>
    (db.words.find? (fun w => w.id == p.wordId)).map (fun w => ⟨p, w⟩))

/-- `getWorkingSet`: the user's rows in boxes 1-5 for a direction, ordered
by box ascending then last-asked ascending. -/
def getWorkingSet (db : Db) (userId : Nat) (direction : Direction) :
    List JoinedRow :=
  sortByLe
    (fun a b =>
      if a.p.leitnerBox = b.p.leitnerBox then optLe a.p.lastAsked b.p.lastAsked
      else a.p.leitnerBox ≤ b.p.leitnerBox)
    (joinWords db (db.progress.filter (fun p =>
      decide (p.userId = userId ∧ 0 < p.leitnerBox ∧ p.direction = direction))))

/-- `getWordsDueForReviewDynamic`: the working set filtered by the due test. -/
def getWordsDueForReviewDynamic (cfg : Config) (db : Db) (userId : Nat)
    (direction : Direction) : List JoinedRow :=
  (getWorkingSet db userId direction).filter
    (fun r => isWordDueForReview r.p cfg.boxIntervals)

/-- `progressOperations.getWeakWords`: rows in boxes 1-2 for the direction
with a non-null last-asked time, most recent first, limited. -/
def getWeakWords (db : Db) (userId : Nat) (direction : Direction)
    (limit : Nat) : List JoinedRow :=
  (sortByLe (fun a b => optLe b.p.lastAsked a.p.lastAsked)
    (joinWords db (db.progress.filter (fun p =>
      decide (p.userId = userId ∧ (p.leitnerBox = 1 ∨ p.leitnerBox = 2) ∧
        p.direction = direction ∧ p.lastAsked ≠ none))))).take limit

/-- `progressOperations.getNewWords`: box-0 rows for the direction, ordered
by the word's creation time. -/
def getNewWords (db : Db) (userId : Nat) (direction : Direction) :
    List JoinedRow :=
  sortByLe (fun a b => a.w.createdAt ≤ b.w.createdAt)
    (joinWords db (db.progress.filter (fun p =>
      decide (p.userId = userId ∧ p.leitnerBox = 0 ∧ p.direction = direction))))

/-- `progressOperations.getMasteredWords` (multi-user): rows with box at
least 3 for the direction. -/
def getMasteredWords (db : Db) (userId : Nat) (direction : Direction) :
    List JoinedRow :=
  joinWords db (db.progress.filter (fun p =>
    decide (p.userId = userId ∧ 3 ≤ p.leitnerBox ∧ p.direction = direction)))

/-- `progressOperations.getReviewWords`: rows in boxes 3-5 for the
direction. -/
def getReviewWords (db : Db) (userId : Nat) (direction : Direction) :
    List JoinedRow :=
  joinWords db (db.progress.filter (fun p =>
    decide (p.userId = userId ∧
      (p.leitnerBox = 3 ∨ p.leitnerBox = 4 ∨ p.leitnerBox = 5) ∧
      p.direction = direction)))

/-- `getWorkingSetSize`: distinct word count over boxes 1-5, either
direction. -/
def getWorkingSetSize (db : Db) (userId : Nat) : Nat :=
  (((db.progress.filter (fun p =>
    decide (p.userId = userId ∧ 0 < p.leitnerBox))).map (·.wordId)).dedup).length

/-- Total `times_asked` over the user's working set. -/
def workingSetAsked (db : Db) (userId : Nat) : Nat :=
  ((db.progress.filter (fun p =>
    decide (p.userId = userId ∧ 0 < p.leitnerBox))).map (·.timesAsked)).sum

/-- Total `times_correct` over the user's working set. -/
def workingSetCorrect (db : Db) (userId : Nat) : Nat :=
  ((db.progress.filter (fun p =>
    decide (p.userId = userId ∧ 0 < p.leitnerBox))).map (·.timesCorrect)).sum

/-- The outcome of `shouldExpandWorkingSet` (its `reason` field). -/
inductive ExpandDecision where
  | empty
  | successRate
  | low
deriving DecidableEq, Repr

/-- `shouldExpandWorkingSet`: empty working set seeds it; otherwise expand
when the success rate is at least 0.60 (with no data the rate defaults to
1.0, so it expands); `correct / asked >= 0.6` is `5 * correct >= 3 * asked`. -/
def shouldExpandWorkingSet (db : Db) (userId : Nat) : ExpandDecision :=
  if getWorkingSetSize db userId = 0 then .empty
  else if workingSetAsked db userId = 0 then .successRate
  else if 3 * workingSetAsked db userId ≤ 5 * workingSetCorrect db userId then
    .successRate
  else .low

/-- `initializeWorkingSet` (also `expandWorkingSet`): pick up to `count`
random box-0 word ids and move all their box-0 rows (both directions) to
box 1, stamping `first_learned`. -/
def initializeWorkingSet (db : Db) (oracle : Oracle)
    (userId count now : Nat) : Db :=
  let candidates := (oracle.randOrder
    (((db.progress.filter (fun p =>
      decide (p.userId = userId ∧ p.leitnerBox = 0))).map (·.wordId)).dedup)).take count
  if candidates = [] then db
  else
    { db with
      progress := db.progress.map (fun p =>
        if p.userId = userId ∧ p.wordId ∈ candidates ∧ p.leitnerBox = 0 then
          { p with leitnerBox := 1, firstLearned := some now }
        else p) }

/-- `ensureProgressRecordsExist`: when the user has no progress rows at all,
insert a box-0 row per word and direction (`initializeProgressForUser`). -/
def ensureProgressRecordsExist (db : Db) (userId : Nat) : Db :=
  if (db.progress.filter (fun p => p.userId == userId)).length = 0 then
    let inserted := db.words.foldl
      (fun (acc : List ProgressRow × Nat) w =>
        (acc.1 ++
          [⟨acc.2, userId, w.id, .en_to_tr, 0, 0, 0, none, none, 0⟩,
            ⟨acc.2 + 1, userId, w.id, .tr_to_en, 0, 0, 0, none, none, 0⟩],
          acc.2 + 2))
      ([], db.nextProgressId)
    { db with progress := db.progress ++ inserted.1, nextProgressId := inserted.2 }
  else db

/-- `settings[sessionType] || 5`: the per-type target count with the
JavaScript falsy fallback. -/
def targetCountFor (cfg : Config) (st : SessionType) : Nat :=
  let t :=
    match st with
    | .quick => cfg.quick
    | .weak_words => cfg.weakWords
    | .review_mastered => 10
    | .category => cfg.quick
  if t = 0 then 5 else t

/-- The repeated `categoryFilter && categoryFilter !== 'all'` guard with its
filter. -/
def applyCategoryFilter (categoryFilter : String) (rows : List JoinedRow) :
    List JoinedRow :=
  if categoryFilter ≠ "" ∧ categoryFilter ≠ "all" then
    rows.filter (fun w => w.w.category == categoryFilter)
  else rows

/-- `selectWordsForSession` (multi-user): ensures progress rows exist, may
seed or expand the working set, then selects per session type; returns the
possibly-mutated database together with the shuffled selection. -/
def selectWordsForSession (cfg : Config) (oracle : Oracle) (db : Db)
    (userId : Nat) (sessionType : SessionType) (categoryFilter : String)
    (direction : Direction) (now : Nat) : Db × List JoinedRow :=
  let db := ensureProgressRecordsExist db userId
  let targetCount := targetCountFor cfg sessionType
  let db :=
    match shouldExpandWorkingSet db userId with
    | .empty => initializeWorkingSet db oracle userId 25 now
    | .successRate => initializeWorkingSet db oracle userId 5 now
    | .low => db
  let selected :=
    match sessionType with
    | .weak_words =>
      let selected := getWeakWords db userId direction targetCount
      if selected.length < targetCount then
        let dueWords := getWordsDueForReviewDynamic cfg db userId direction
        let dueWords := dueWords.filter
          (fun w => decide (∀ s ∈ selected, s.p.id ≠ w.p.id))
        let dueWords := sortByLe
          (fun a b => a.p.leitnerBox ≤ b.p.leitnerBox) dueWords
        selected ++ dueWords.take (targetCount - selected.length)
      else selected
    | .review_mastered =>
      (oracle.shuffle (getReviewWords db userId direction)).take targetCount
    | _ =>
      let dueWords := applyCategoryFilter categoryFilter
        (getWordsDueForReviewDynamic cfg db userId direction)
      let dueWords := sortByLe
        (fun a b =>
          if a.p.leitnerBox = b.p.leitnerBox then
            a.p.lastAsked.getD 0 ≤ b.p.lastAsked.getD 0
          else a.p.leitnerBox ≤ b.p.leitnerBox)
        dueWords
      let selected := dueWords.take targetCount
      let selected :=
        if selected.length < targetCount then
          let ws := applyCategoryFilter categoryFilter
            (getWorkingSet db userId direction)
          let ws := ws.filter (fun w => decide (∀ s ∈ selected, s.p.id ≠ w.p.id))
          selected ++ ws.take (targetCount - selected.length)
        else selected
      let selected :=
        if selected.length < targetCount then
          let newWords := applyCategoryFilter categoryFilter
            (getNewWords db userId direction)
          selected ++ newWords.take (targetCount - selected.length)
        else selected
      if oracle.masteredGate ∧ 0 < selected.length then
        let mastered := applyCategoryFilter categoryFilter
          (getMasteredWords db userId direction)
        match mastered[oracle.masteredIndex % mastered.length]? with
        | some rm =>
          if (∀ s ∈ selected, s.p.id ≠ rm.p.id) then selected ++ [rm]
          else selected
        | none => selected
      else selected
  (db, oracle.shuffle selected)

/-- The `en_to_tr` share of the target: `halfCount` plus the odd remainder
when the random draw (`Math.random() > 0.5`, modelled by `extraToEn`)
assigns it to this direction. -/
def enTargetFor (targetCount : Nat) (extraToEn : Bool) : Nat :=
  if 0 < targetCount % 2 ∧ extraToEn then targetCount / 2 + 1
  else targetCount / 2

/-- The `tr_to_en` share of the target: `halfCount` plus the odd remainder
when the random draw assigns it to this direction. -/
def trTargetFor (targetCount : Nat) (extraToEn : Bool) : Nat :=
  if 0 < targetCount % 2 ∧ ¬ extraToEn then targetCount / 2 + 1
  else targetCount / 2

/-- `selectWordsForSessionMixed` minus its two per-direction selection calls
and final shuffle: split the target evenly (the source's `halfCount` and
random `extraWord` assignment are the named target functions above), take
each direction's share, then backfill a shortfall from the other
direction's surplus.  The selected rows already carry their direction (the
source's `forEach` re-attaches it). -/
def mixedCombine (enWords trWords : List JoinedRow) (targetCount : Nat)
    (extraToEn : Bool) : List JoinedRow :=
  let enTarget := enTargetFor targetCount extraToEn
  let trTarget := trTargetFor targetCount extraToEn
  let selectedEn := enWords.take enTarget
  let selectedTr := trWords.take trTarget
  let enShortfall := enTarget - selectedEn.length
  let trShortfall := trTarget - selectedTr.length
  let selectedTr :=
    if 0 < enShortfall ∧ trTarget < trWords.length then
      selectedTr ++ (trWords.drop trTarget).take enShortfall
    else selectedTr
  let selectedEn :=
    if 0 < trShortfall ∧ enTarget < enWords.length then
      selectedEn ++ (enWords.drop enTarget).take trShortfall
    else selectedEn
  selectedEn ++ selectedTr

/-- `selectWordsForSessionMixed`: run the selection independently per
direction (the first call's database mutations are seen by the second),
combine, and shuffle. -/
def selectWordsForSessionMixed (cfg : Config) (oracle : Oracle) (db : Db)
    (userId : Nat) (sessionType : SessionType) (categoryFilter : String)
    (targetCount : Nat) (extraToEn : Bool) (now : Nat) :
    Db × List JoinedRow :=
  let step1 := selectWordsForSession cfg oracle db userId sessionType
    categoryFilter .en_to_tr now
  let step2 := selectWordsForSession cfg oracle step1.1 userId sessionType
    categoryFilter .tr_to_en now
  (step2.1, oracle.shuffle (mixedCombine step1.2 step2.2 targetCount extraToEn))

/-- `getProgressStats(...).totalWords`: half the user's progress row count
(one row per word and direction). -/
def totalWordsStat (db : Db) (userId : Nat) : Nat :=
  (db.progress.filter (fun p => p.userId == userId)).length / 2

/-- `progressOperations.getTotalMastered` (multi-user): words whose rows
with box at least 3 number exactly 2 (both directions mastered). -/
def fullyMastered (db : Db) (userId : Nat) : Nat :=
  ((((db.progress.filter (fun p =>
      decide (p.userId = userId ∧ 3 ≤ p.leitnerBox))).map (·.wordId)).dedup).filter
    (fun wid =>
      (db.progress.filter (fun p =>
        decide (p.userId = userId ∧ 3 ≤ p.leitnerBox ∧ p.wordId = wid))).length == 2)).length

/-! ## Session engine (`server/services/session.js`) -/

/-- One entry of the in-memory session queue (`sessionData.words[i]`). -/
structure SessionWord where
  progressId : Nat
  wordId : Nat
  english : List Char
  turkish : List Char
  category : String
  exampleSentence : Option String
  leitnerBox : Nat
  timesAsked : Nat
  timesCorrect : Nat
  isNew : Bool
deriving DecidableEq, Repr

/-- The mapping from a selected row to a queue entry (`words.map(w => ...)`
in `startSession`); `isNew` records `leitner_box === 0`. -/
def toSessionWord (r : JoinedRow) : SessionWord :=
  ⟨r.p.id, r.p.wordId, r.w.english, r.w.turkish, r.w.category,
    r.w.exampleSentence, r.p.leitnerBox, r.p.timesAsked, r.p.timesCorrect,
    r.p.leitnerBox == 0⟩

/-- One recorded answer (`session.results[i]`). -/
structure ResultEntry where
  wordId : Nat
  progressId : Nat
  userAnswer : List Char
  correctAnswer : List Char
  isCorrect : Bool
  wasNew : Bool
deriving DecidableEq, Repr

/-- The in-memory state of one active session. -/
structure SessionState where
  userId : Nat
  direction : Direction
  sessionType : SessionType
  categoryFilter : String
  words : List SessionWord
  currentIndex : Nat
  results : List ResultEntry
  starsEarned : Nat
deriving DecidableEq, Repr

/-- The payload of `progressOperations.updateAfterAnswer.run`. -/
structure ProgressUpdate where
  id : Nat
  leitnerBox : Nat
  correct : Nat
  lastAsked : Nat
  firstLearned : Option Nat
deriving DecidableEq, Repr

/-- The payload of `dailyActivityOperations.upsert.run`. -/
structure DailyUpsert where
  userId : Nat
  sessionsCompleted : Nat
  wordsIntroduced : Nat
  starsEarned : Nat
deriving DecidableEq, Repr

/-- What `submitAnswer` returns to the caller. -/
inductive SubmitResponse where
  | noCurrentWord
  | allowRetry
  | resolved (result : Bool) (newLeitnerBox : Nat) (starsEarned : Nat)
      (isComplete : Bool)
deriving DecidableEq, Repr

/-- A `submitAnswer` call's full effect: the new in-memory state, the
database writes it issued, and its response. -/
structure SubmitOutcome where
  state : SessionState
  progressWrites : List ProgressUpdate
  dailyWrites : List DailyUpsert
  response : SubmitResponse
deriving DecidableEq, Repr

/-- The answer `submitAnswer` checks against:
`direction === 'en_to_tr' ? word.turkish : word.english`. -/
def expectedAnswer (s : SessionState) (word : SessionWord) : List Char :=
  match s.direction with
  | .en_to_tr => word.turkish
  | .tr_to_en => word.english

/-- The verb flag passed to the validator:
`isVerb && direction === 'tr_to_en'`. -/
def verbFlagFor (s : SessionState) (word : SessionWord) : Bool :=
  (word.category == "verb") && (s.direction == Direction.tr_to_en)

/-- `submitAnswer` on an active session: validate against the
direction-appropriate answer (verb handling only for `tr_to_en`); an
`almost` verdict on a first attempt returns `allowRetry` touching nothing;
otherwise the submission resolves: only an exact `correct` verdict counts,
the result is recorded, a star awarded if correct, the progress row updated
with the box transition (box 0 treated as 1), daily activity bumped for a
new word, and the cursor advanced. -/
def submitAnswer (s : SessionState) (userAnswer : List Char) (isRetry : Bool)
    (now : Nat) : SubmitOutcome :=
  match s.words[s.currentIndex]? with
  | none => ⟨s, [], [], .noCurrentWord⟩
  | some word =>
    let correctAnswer := expectedAnswer s word
    let validation := validateAnswer userAnswer correctAnswer
      (verbFlagFor s word)
    if validation = .almost ∧ isRetry = false then
      ⟨s, [], [], .allowRetry⟩
    else
      let isCorrect : Bool := validation = ValidationResult.correct
      let results := s.results ++
        [⟨word.wordId, word.progressId, userAnswer, correctAnswer, isCorrect,
          word.isNew⟩]
      let starsEarned := if isCorrect then s.starsEarned + 1 else s.starsEarned
      let newBox := getNewBox (if word.leitnerBox = 0 then 1 else word.leitnerBox)
        isCorrect
      let progressWrite : ProgressUpdate :=
        ⟨word.progressId, newBox, if isCorrect then 1 else 0, now,
          if word.isNew then some now else none⟩
      let dailyWrites : List DailyUpsert :=
        if word.isNew then [⟨s.userId, 0, 1, 0⟩] else []
      let currentIndex := s.currentIndex + 1
      let isComplete : Bool := s.words.length ≤ currentIndex
      ⟨{ s with
          results := results
          starsEarned := starsEarned
          currentIndex := currentIndex },
        [progressWrite], dailyWrites,
        .resolved isCorrect newBox starsEarned isComplete⟩

/-- The two outcomes of `startSession`. -/
inductive StartResult where
  | noWords (allMastered : Bool)
  | started (s : SessionState)
deriving DecidableEq, Repr

/-- `startSession`: choose a random direction (`coin`), select words for it,
fail with the `allMastered` flag (`getProgressStats(userId).fullyMastered >
0`) when the selection is empty, otherwise build the session queue. -/
def startSession (cfg : Config) (oracle : Oracle) (db : Db) (userId : Nat)
    (sessionType : SessionType) (categoryFilter : String) (coin : Bool)
    (now : Nat) : Db × StartResult :=
  let direction := if coin then Direction.en_to_tr else Direction.tr_to_en
  let sel := selectWordsForSession cfg oracle db userId sessionType
    categoryFilter direction now
  if sel.2 = [] then
    (sel.1, .noWords (decide (0 < fullyMastered sel.1 userId)))
  else
    (sel.1,
      .started
        ⟨userId, direction, sessionType, categoryFilter,
          sel.2.map toSessionWord, 0, [], 0⟩)

/-- The two outcomes of the mixed-direction session start; the queue keeps
the selected rows, each already bound to its direction. -/
inductive MixedStartResult where
  | noWords (allMastered : Bool)
  | started (queue : List JoinedRow)
deriving DecidableEq, Repr

/-- Modelled from the spec: `start(user, sessionType, categoryFilter)` of
the current session-engine revision "resolves `targetCount` from settings,
invokes the Scheduler's mixed-direction selection, fails with
`NoWordsAvailable` if the result is empty".  That revision is not under
`src/`: the session.js copy there predates it (the bundled client reads
per-word direction and retry fields only the newer engine produces), and
`selectWordsForSessionMixed` is defined and exported by the newest leitner
revision under `src/` but called by nothing in it. -/
def startSessionMixed (cfg : Config) (oracle : Oracle) (db : Db)
    (userId : Nat) (sessionType : SessionType) (categoryFilter : String)
    (extraToEn : Bool) (now : Nat) : Db × MixedStartResult :=
  let sel := selectWordsForSessionMixed cfg oracle db userId sessionType
    categoryFilter (targetCountFor cfg sessionType) extraToEn now
  if sel.2 = [] then
    (sel.1, .noWords (decide (0 < fullyMastered sel.1 userId)))
  else
    (sel.1, .started sel.2)



/-! ## Delayed-retry queue (modelled from the spec, section 4.3) -/

/-- Modelled from the spec: the delayed-retry fields of `SessionWordEntry`
(`isRetryAttempt`, `retryCount`).  The session.js revision implementing the
spec's delayed-retry splicing is not under `src/`; the bundled client reads
the `isRetry`/`retryNumber` fields only that revision produces. -/
structure QueueEntry where
  wordId : Nat
  isRetryAttempt : Bool
  retryCount : Nat
deriving DecidableEq, Repr

/-- Modelled from the spec: the queue-and-cursor fragment of an in-progress
session with delayed retries. -/
structure RetryQueueState where
  queue : List QueueEntry
  cursor : Nat
deriving DecidableEq, Repr

/-- How a submission resolves: correct, or incorrect (including an `almost`
rejected on retry). -/
inductive Resolution where
  | correct
  | incorrect
deriving DecidableEq, Repr

/-- A JavaScript `splice(n, 0, a)` insertion. -/
def spliceAt (n : Nat) (a : QueueEntry) (l : List QueueEntry) :
    List QueueEntry :=
  l.take n ++ a :: l.drop n

/-- Modelled from the spec: on a resolving submission, if incorrect and the
current entry's `retryCount < 2`, clone it with `isRetryAttempt = true` and
`retryCount + 1` and splice the clone 4 positions ahead of the cursor (at
the end of the queue if fewer than 4 positions remain); then advance the
cursor. -/
def retryStep (s : RetryQueueState) (r : Resolution) : RetryQueueState :=
  match s.queue[s.cursor]? with
  | none => s
  | some e =>
    let queue :=
      if r = .incorrect ∧ e.retryCount < 2 then
        spliceAt (min (s.cursor + 4) s.queue.length)
          { e with isRetryAttempt := true, retryCount := e.retryCount + 1 }
          s.queue
      else s.queue
    ⟨queue, s.cursor + 1⟩

/-- A whole session's resolutions, folded in order. -/
def retryRun (s : RetryQueueState) (rs : List Resolution) : RetryQueueState :=
  rs.foldl retryStep s


/-! ### Levenshtein distance lemmas -/

theorem levenshteinDistanceFuel_congr :
    ∀ (f g : Nat) (xs ys : List Char), xs.length + ys.length ≤ f →
      xs.length + ys.length ≤ g →
      levenshteinDistanceFuel f xs ys = levenshteinDistanceFuel g xs ys := by
  intro f
  induction f with
  | zero =>
    intro g xs ys hf _
    match xs, ys with
    | [], ys => simp only [levenshteinDistanceFuel]
    | x :: xs, [] => simp only [levenshteinDistanceFuel]
    | x :: xs, y :: ys => simp at hf
  | succ f ih =>
    intro g xs ys hf hg
    match xs, ys with
    | [], ys => simp only [levenshteinDistanceFuel]
    | x :: xs, [] => simp only [levenshteinDistanceFuel]
    | x :: xs, y :: ys =>
      match g with
      | 0 => simp at hg
      | g + 1 =>
        simp only [List.length_cons] at hf hg
        simp only [levenshteinDistanceFuel]
        rw [ih g xs (y :: ys) (by simp only [List.length_cons]; omega)
            (by simp only [List.length_cons]; omega),
          ih g (x :: xs) ys (by simp only [List.length_cons]; omega)
            (by simp only [List.length_cons]; omega),
          ih g xs ys (by omega) (by omega)]

/-- The recurrence satisfied by `levenshteinDistance` on two nonempty
strings: minimum of deletion, insertion and substitution. -/
theorem levenshteinDistance_cons_cons (x y : Char) (xs ys : List Char) :
    levenshteinDistance (x :: xs) (y :: ys) =
      min (levenshteinDistance xs (y :: ys) + 1)
        (min (levenshteinDistance (x :: xs) ys + 1)
          (levenshteinDistance xs ys + (if x = y then 0 else 1))) := by
  have h0 : levenshteinDistance (x :: xs) (y :: ys) =
      levenshteinDistanceFuel (xs.length + ys.length + 1 + 1) (x :: xs) (y :: ys) := by
    unfold levenshteinDistance
    exact levenshteinDistanceFuel_congr _ _ _ _
      (by simp only [List.length_cons]; omega) (by simp only [List.length_cons]; omega)
  rw [h0]
  simp only [levenshteinDistanceFuel]
  unfold levenshteinDistance
  rw [levenshteinDistanceFuel_congr (xs.length + ys.length + 1)
      (xs.length + (y :: ys).length) xs (y :: ys)
      (by simp only [List.length_cons]; omega) (by simp only [List.length_cons]; omega),
    levenshteinDistanceFuel_congr (xs.length + ys.length + 1)
      ((x :: xs).length + ys.length) (x :: xs) ys
      (by simp only [List.length_cons]; omega) (by simp only [List.length_cons]; omega),
    levenshteinDistanceFuel_congr (xs.length + ys.length + 1)
      (xs.length + ys.length) xs ys (by omega) (by omega)]

theorem levenshteinDistance_nil_left (ys : List Char) :
    levenshteinDistance [] ys = ys.length := by
  unfold levenshteinDistance
  simp only [levenshteinDistanceFuel]

theorem levenshteinDistance_nil_right (xs : List Char) :
    levenshteinDistance xs [] = xs.length := by
  unfold levenshteinDistance
  cases xs <;> simp only [levenshteinDistanceFuel, List.length_cons, List.length_nil]

/-- The distance is at most the length of the longer string. -/
theorem levenshteinDistance_le_max (xs ys : List Char) :
    levenshteinDistance xs ys ≤ max xs.length ys.length := by
  induction xs generalizing ys with
  | nil => rw [levenshteinDistance_nil_left]; omega
  | cons x xs ihx =>
    induction ys with
    | nil => rw [levenshteinDistance_nil_right]; omega
    | cons y ys ihy =>
      have h1 := ihx (y :: ys)
      have h2 := ihy
      have h3 := ihx ys
      rw [levenshteinDistance_cons_cons]
      simp only [List.length_cons] at *
      rcases Decidable.em (x = y) with h | h
      · rw [if_pos h]; omega
      · rw [if_neg h]; omega

/-- Length lower bound: `len(xs) ≤ d + len(ys)` for `d` the distance. -/
theorem length_le_levenshteinDistance_add (xs ys : List Char) :
    xs.length ≤ levenshteinDistance xs ys + ys.length := by
  induction xs generalizing ys with
  | nil => simp
  | cons x xs ihx =>
    induction ys with
    | nil => rw [levenshteinDistance_nil_right]; omega
    | cons y ys ihy =>
      have h1 := ihx (y :: ys)
      have h2 := ihy
      have h3 := ihx ys
      rw [levenshteinDistance_cons_cons]
      simp only [List.length_cons] at *
      rcases Decidable.em (x = y) with h | h
      · rw [if_pos h]; omega
      · rw [if_neg h]; omega

/-- Symmetric length lower bound. -/
theorem length_le_levenshteinDistance_add' (xs ys : List Char) :
    ys.length ≤ levenshteinDistance xs ys + xs.length := by
  induction xs generalizing ys with
  | nil => rw [levenshteinDistance_nil_left]; simp
  | cons x xs ihx =>
    induction ys with
    | nil => simp
    | cons y ys ihy =>
      have h1 := ihx (y :: ys)
      have h2 := ihy
      have h3 := ihx ys
      rw [levenshteinDistance_cons_cons]
      simp only [List.length_cons] at *
      rcases Decidable.em (x = y) with h | h
      · rw [if_pos h]; omega
      · rw [if_neg h]; omega

/-- Distance between two runs of the same character is the difference of
their lengths (stated with truncated subtraction in both directions). -/
theorem levenshteinDistance_replicate (c : Char) (m n : Nat) :
    levenshteinDistance (List.replicate m c) (List.replicate n c) =
      (m - n) + (n - m) := by
  induction m generalizing n with
  | zero => rw [List.replicate_zero, levenshteinDistance_nil_left]; simp
  | succ m ihm =>
    induction n with
    | zero => rw [List.replicate_zero, levenshteinDistance_nil_right]; simp
    | succ n ihn =>
      have h1 := ihm (n + 1)
      have h2 := ihn
      have h3 := ihm n
      rw [List.replicate_succ c m, List.replicate_succ c n, levenshteinDistance_cons_cons]
      rw [List.replicate_succ] at h1 h2
      rw [h1, h2, h3]
      have hc : (if c = c then 0 else 1) = 0 := if_pos rfl
      rw [hc]
      omega

/-! ## Claim C6: accuracy range and the 100% characterization -/

/-- C6 counterexample: the claim "`accuracy == 100` iff `d == 0`" fails on
the code in both directions: on two empty strings the distance is 0 but the
accuracy is 0 (the empty-correct-answer guard), and on two 199/200-character
strings the distance is 1 but rounding yields accuracy 100. -/
theorem calculateAccuracy_hundred_counterexample :
    (levenshteinDistance [] [] = 0 ∧ calculateAccuracy [] [] = 0) ∧
      (levenshteinDistance (List.replicate 199 'a') (List.replicate 200 'a') = 1 ∧
        calculateAccuracy (List.replicate 199 'a') (List.replicate 200 'a') = 100) := by
  have hd : levenshteinDistance (List.replicate 199 'a') (List.replicate 200 'a') = 1 := by
    rw [levenshteinDistance_replicate]
  refine ⟨⟨rfl, rfl⟩, hd, ?_⟩
  unfold calculateAccuracy
  rw [hd]
  simp only [List.length_replicate]
  norm_num

/-- C6 (amended): `calculateAccuracy` always returns a value in `[0, 100]`
(the lower bound holds because the result is a natural number); for an empty
correct answer it returns 0 even when the distance is 0; for a nonempty
correct answer it returns 100 exactly when `200 * d ≤ maxLen` — in
particular when `d = 0`, but also for `d > 0` once the strings are at least
`200 * d` characters long. -/
theorem calculateAccuracy_bounds (u c : List Char) :
    calculateAccuracy u c ≤ 100 ∧
      (c = [] → calculateAccuracy u c = 0) ∧
      (c ≠ [] →
        (calculateAccuracy u c = 100 ↔
          200 * levenshteinDistance u c ≤ max u.length c.length)) := by
  by_cases hc : c = []
  · subst hc
    have h0 : calculateAccuracy u [] = 0 := by unfold calculateAccuracy; simp
    rw [h0]
    exact ⟨by omega, fun _ => rfl, fun h => absurd rfl h⟩
  · have hcl : 0 < c.length := List.length_pos.mpr hc
    have hd : levenshteinDistance u c ≤ max u.length c.length :=
      levenshteinDistance_le_max u c
    have hL : 0 < max u.length c.length := by
      have := Nat.le_max_right u.length c.length; omega
    have hacc : calculateAccuracy u c =
        (200 * (max u.length c.length - levenshteinDistance u c) +
            max u.length c.length) / (2 * max u.length c.length) := by
      unfold calculateAccuracy
      rw [if_neg (by omega), if_neg (by omega)]
    have hle : calculateAccuracy u c ≤ 100 := by
      rw [hacc]
      have h101 : (200 * (max u.length c.length - levenshteinDistance u c) +
          max u.length c.length) / (2 * max u.length c.length) < 101 := by
        rw [Nat.div_lt_iff_lt_mul (by omega)]
        omega
      omega
    refine ⟨hle, fun h => absurd h hc, fun _ => ⟨fun h => ?_, fun h => ?_⟩⟩
    · rw [hacc] at h
      have h100 : 100 * (2 * max u.length c.length) ≤
          200 * (max u.length c.length - levenshteinDistance u c) +
            max u.length c.length := by
        rw [← Nat.le_div_iff_mul_le (by omega)]
        omega
      omega
    · have h100 : 100 ≤ calculateAccuracy u c := by
        rw [hacc, Nat.le_div_iff_mul_le (by omega)]
        omega
      omega

/-- C6 witness: the amended characterization applied at `u = "ab"`,
`c = "ac"`: distance 1, `maxLen` 2, so the accuracy is not 100 (it is 50). -/
theorem calculateAccuracy_bounds_witness :
    calculateAccuracy ['a', 'b'] ['a', 'c'] ≤ 100 ∧
      ¬ calculateAccuracy ['a', 'b'] ['a', 'c'] = 100 := by
  have h := calculateAccuracy_bounds ['a', 'b'] ['a', 'c']
  refine ⟨h.1, fun hcontra => ?_⟩
  have h2 := (h.2.2 (by decide)).mp hcontra
  revert h2
  decide

/-! ## Claim C5: characterization of the `almost` verdict -/

/-- Auxiliary: the code's `isAlmostCorrect` (which counts correct characters
from the correct answer's length) agrees with the spec's `maxLen`-based
condition: whenever the accuracy is at least 75% and the distance positive,
the two correct-character counts are both at least 1 or both 0. -/
theorem isAlmostCorrect_iff (a b : List Char) :
    isAlmostCorrect a b = true ↔
      (75 ≤ calculateAccuracy a b ∧
        1 ≤ max a.length b.length - levenshteinDistance a b ∧
        0 < levenshteinDistance a b) := by
  by_cases ha : a = []
  · subst ha
    have hL : isAlmostCorrect [] b = false := by unfold isAlmostCorrect; simp
    rw [hL, levenshteinDistance_nil_left]
    constructor
    · intro h; simp at h
    · rintro ⟨_, h2, _⟩
      have := Nat.le_max_right ([] : List Char).length b.length
      simp at h2
  · by_cases hb : b = []
    · subst hb
      have hL : isAlmostCorrect a [] = false := by
        unfold isAlmostCorrect; simp
      have hacc : calculateAccuracy a [] = 0 := by
        unfold calculateAccuracy; simp
      rw [hL, hacc]
      constructor
      · intro h; simp at h
      · rintro ⟨h1, _, _⟩; omega
    · have ha' : a.isEmpty = false := by simp [ha]
      have hb' : b.isEmpty = false := by simp [hb]
      unfold isAlmostCorrect
      rw [if_neg (by simp [ha', hb'])]
      simp only [decide_eq_true_eq]
      have hmaxb := Nat.le_max_right a.length b.length
      constructor
      · rintro ⟨h1, h2, h3⟩
        exact ⟨h1, by omega, h3⟩
      · rintro ⟨h1, h2, h3⟩
        refine ⟨h1, ?_, h3⟩
        have hbl : 0 < b.length := List.length_pos.mpr hb
        have hd : levenshteinDistance a b ≤ max a.length b.length :=
          levenshteinDistance_le_max a b
        have hlen : a.length ≤ levenshteinDistance a b + b.length :=
          length_le_levenshteinDistance_add a b
        have hL : 0 < max a.length b.length := by omega
        have hacc : calculateAccuracy a b =
            (200 * (max a.length b.length - levenshteinDistance a b) +
                max a.length b.length) / (2 * max a.length b.length) := by
          unfold calculateAccuracy
          rw [if_neg (by omega), if_neg (by omega)]
        rw [hacc, Nat.le_div_iff_mul_le (by omega)] at h1
        rcases max_choice a.length b.length with hm | hm <;> omega

/-- C5: for any two strings whose normalized forms differ, non-verb
validation returns `almost` exactly when, on the normalized strings,
`accuracy ≥ 75`, the number of correct characters `maxLen - d` is at least
1, and `d > 0`; otherwise it returns `incorrect`. -/
theorem validateAnswer_almost_iff (u c : List Char)
    (hne : normalizeForComparison u ≠ normalizeForComparison c) :
    validateAnswer u c false =
      (if 75 ≤ calculateAccuracy (normalizeForComparison u) (normalizeForComparison c) ∧
          1 ≤ max (normalizeForComparison u).length (normalizeForComparison c).length -
            levenshteinDistance (normalizeForComparison u) (normalizeForComparison c) ∧
          0 < levenshteinDistance (normalizeForComparison u) (normalizeForComparison c)
        then ValidationResult.almost else ValidationResult.incorrect) := by
  have hstep : validateAnswer u c false =
      (if isAlmostCorrect (normalizeForComparison u) (normalizeForComparison c) then
        ValidationResult.almost else ValidationResult.incorrect) := by
    unfold validateAnswer
    simp only [Bool.false_eq_true, if_false, if_neg hne]
  rw [hstep]
  by_cases h : isAlmostCorrect (normalizeForComparison u) (normalizeForComparison c) = true
  · rw [if_pos h, if_pos ((isAlmostCorrect_iff _ _).mp h)]
  · rw [if_neg (fun hc => h ((isAlmostCorrect_iff _ _).mpr hc))]
    rw [if_neg (by simpa using h)]

/-- C5 witness: `"mutlo"` against `"mutlu"`: normalized forms differ,
distance 1, accuracy 80, so the verdict is `almost`. -/
theorem validateAnswer_almost_iff_witness :
    validateAnswer ['m', 'u', 't', 'l', 'o'] ['m', 'u', 't', 'l', 'u'] false =
      ValidationResult.almost := by
  have h := validateAnswer_almost_iff ['m', 'u', 't', 'l', 'o']
    ['m', 'u', 't', 'l', 'u'] (by decide)
  rw [h]
  decide

/-! ## Claim C8: box transitions -/

/-- C8: for every box in `[1, 5]` a correct answer moves to
`min(b + 1, 5)` and an incorrect one to 1; five consecutive correct answers
from box 1 reach box 5 and a sixth stays there. -/
theorem getNewBox_transitions (b : Nat) (h1 : 1 ≤ b) (h2 : b ≤ 5) :
    getNewBox b true = min (b + 1) 5 ∧ getNewBox b false = 1 ∧
      (fun x => getNewBox x true)^[5] 1 = 5 ∧
      (fun x => getNewBox x true)^[6] 1 = 5 := by
  exact ⟨rfl, rfl, by decide, by decide⟩

/-- C8 witness: the transition facts applied at box 5. -/
theorem getNewBox_transitions_witness :
    getNewBox 5 true = min (5 + 1) 5 ∧ getNewBox 5 false = 1 ∧
      (fun x => getNewBox x true)^[5] 1 = 5 ∧
      (fun x => getNewBox x true)^[6] 1 = 5 :=
  getNewBox_transitions 5 (by decide) (by decide)

/-! ## Claim C3: the due test -/

/-- C3: for every working-set row (box nonzero) and interval table, the due
test used by word selection holds exactly when the session counter is
divisible by the box's (fallback-adjusted) configured interval; under the
default intervals box 1 is always due, and a box-5 row is due exactly when
its counter is divisible by 16 — not on every session. -/
theorem isWordDueForReview_iff :
    (∀ (w : ProgressRow) (iv : Nat → Nat), w.leitnerBox ≠ 0 →
        (isWordDueForReview w iv = true ↔
          w.sessionCounter % boxIntervalOrDefault iv w.leitnerBox = 0)) ∧
      (∀ w : ProgressRow, w.leitnerBox = 1 →
        isWordDueForReview w getBoxIntervalsDefault = true) ∧
      (∀ w : ProgressRow, w.leitnerBox = 5 →
        (isWordDueForReview w getBoxIntervalsDefault = true ↔
          w.sessionCounter % 16 = 0)) := by
  have key : ∀ (w : ProgressRow) (iv : Nat → Nat), w.leitnerBox ≠ 0 →
      (isWordDueForReview w iv = true ↔
        w.sessionCounter % boxIntervalOrDefault iv w.leitnerBox = 0) := by
    intro w iv h
    unfold isWordDueForReview
    rw [if_neg h]
    by_cases h1 : boxIntervalOrDefault iv w.leitnerBox = 1
    · rw [if_pos h1, h1]
      simp [Nat.mod_one]
    · rw [if_neg h1]
      simp
  refine ⟨key, fun w h => ?_, fun w h => ?_⟩
  · rw [key w _ (by omega), h]
    simp [boxIntervalOrDefault, getBoxIntervalsDefault, Nat.mod_one]
  · rw [key w _ (by omega), h]
    simp [boxIntervalOrDefault, getBoxIntervalsDefault]

/-- C3 witness: a box-5 row with counter 16 is due, one with counter 1 is
not (so box 5 is not due on every session). -/
theorem isWordDueForReview_iff_witness :
    isWordDueForReview ⟨0, 0, 0, .en_to_tr, 5, 0, 0, none, none, 16⟩
        getBoxIntervalsDefault = true ∧
      isWordDueForReview ⟨0, 0, 0, .en_to_tr, 5, 0, 0, none, none, 1⟩
        getBoxIntervalsDefault = false := by
  constructor
  · exact (isWordDueForReview_iff.2.2 _ rfl).mpr (by decide)
  · have h := isWordDueForReview_iff.2.2
      (⟨0, 0, 0, .en_to_tr, 5, 0, 0, none, none, 1⟩ : ProgressRow) rfl
    cases hb : isWordDueForReview ⟨0, 0, 0, .en_to_tr, 5, 0, 0, none, none, 1⟩
        getBoxIntervalsDefault
    · rfl
    · exact absurd (h.mp hb) (by decide)

/-! ## Claim C4: the `almost` first-attempt frame -/

/-- C4: when the current entry's verdict is `almost` and this is the first
submission, `submitAnswer` returns the `allowRetry` response and leaves
everything untouched — the same session state (cursor, results, star count)
and no progress or daily-activity writes; any subsequent retry submission
(`isRetry = true`) resolves the entry, advancing the cursor and recording a
result that is correct only for an exact `correct` verdict — in particular
a second `almost` is recorded as incorrect. -/
theorem submitAnswer_almost_first_attempt (s : SessionState)
    (word : SessionWord) (userAnswer : List Char) (now : Nat)
    (hword : s.words[s.currentIndex]? = some word)
    (halmost : validateAnswer userAnswer (expectedAnswer s word)
      (verbFlagFor s word) = ValidationResult.almost) :
    submitAnswer s userAnswer false now = ⟨s, [], [], .allowRetry⟩ ∧
      (∀ ua : List Char,
        (submitAnswer s ua true now).state.currentIndex = s.currentIndex + 1 ∧
          (submitAnswer s ua true now).state.results =
            s.results ++
              [⟨word.wordId, word.progressId, ua, expectedAnswer s word,
                decide (validateAnswer ua (expectedAnswer s word)
                  (verbFlagFor s word) = ValidationResult.correct),
                word.isNew⟩] ∧
          (validateAnswer ua (expectedAnswer s word) (verbFlagFor s word) =
              ValidationResult.almost →
            decide (validateAnswer ua (expectedAnswer s word)
              (verbFlagFor s word) = ValidationResult.correct) = false)) := by
  constructor
  · simp only [submitAnswer, hword]
    rw [if_pos ⟨halmost, trivial⟩]
  · intro ua
    have hfalse : ¬ (validateAnswer ua (expectedAnswer s word)
        (verbFlagFor s word) = ValidationResult.almost ∧ true = false) := by
      rintro ⟨_, h⟩
      exact absurd h (by decide)
    refine ⟨?_, ?_, ?_⟩
    · simp only [submitAnswer, hword, if_neg hfalse]
    · simp only [submitAnswer, hword, if_neg hfalse]
    · intro h
      rw [h]
      decide

/-- C4 witness: a one-word `en_to_tr` session on `mutlu`; `"mutlo"` is
`almost`, so the first submission allows a retry and changes nothing, and
the retry submission advances the cursor. -/
theorem submitAnswer_almost_first_attempt_witness :
    (submitAnswer
        ⟨1, .en_to_tr, .quick, "all",
          [⟨7, 3, ['h', 'a', 'p', 'p', 'y'], ['m', 'u', 't', 'l', 'u'],
            "noun", none, 1, 2, 1, false⟩], 0, [], 0⟩
        ['m', 'u', 't', 'l', 'o'] false 99).response = .allowRetry ∧
      (submitAnswer
        ⟨1, .en_to_tr, .quick, "all",
          [⟨7, 3, ['h', 'a', 'p', 'p', 'y'], ['m', 'u', 't', 'l', 'u'],
            "noun", none, 1, 2, 1, false⟩], 0, [], 0⟩
        ['m', 'u', 't', 'l', 'o'] false 99).state =
        ⟨1, .en_to_tr, .quick, "all",
          [⟨7, 3, ['h', 'a', 'p', 'p', 'y'], ['m', 'u', 't', 'l', 'u'],
            "noun", none, 1, 2, 1, false⟩], 0, [], 0⟩ ∧
      (submitAnswer
        ⟨1, .en_to_tr, .quick, "all",
          [⟨7, 3, ['h', 'a', 'p', 'p', 'y'], ['m', 'u', 't', 'l', 'u'],
            "noun", none, 1, 2, 1, false⟩], 0, [], 0⟩
        ['m', 'u', 't', 'l', 'u'] true 99).state.currentIndex = 0 + 1 := by
  have h := submitAnswer_almost_first_attempt
    ⟨1, .en_to_tr, .quick, "all",
      [⟨7, 3, ['h', 'a', 'p', 'p', 'y'], ['m', 'u', 't', 'l', 'u'],
        "noun", none, 1, 2, 1, false⟩], 0, [], 0⟩
    ⟨7, 3, ['h', 'a', 'p', 'p', 'y'], ['m', 'u', 't', 'l', 'u'],
      "noun", none, 1, 2, 1, false⟩
    ['m', 'u', 't', 'l', 'o'] 99 rfl (by decide)
  exact ⟨by rw [h.1], by rw [h.1], (h.2 ['m', 'u', 't', 'l', 'u']).1⟩

/-! ## Claim C10: box-0 entries are promoted on first resolution -/

/-- C10: when the current queue entry is a never-seen word (box 0, served
from the third selection fallback tier), a resolving submission writes its
progress row with the transition applied as if the box were 1: box 2 when
correct (skipping box 1), box 1 when incorrect — never box 0. -/
theorem submitAnswer_box_zero_write (s : SessionState) (word : SessionWord)
    (userAnswer : List Char) (isRetry : Bool) (now : Nat)
    (hword : s.words[s.currentIndex]? = some word)
    (hbox : word.leitnerBox = 0)
    (hres : ¬ (validateAnswer userAnswer (expectedAnswer s word)
      (verbFlagFor s word) = ValidationResult.almost ∧ isRetry = false)) :
    (submitAnswer s userAnswer isRetry now).progressWrites =
      [⟨word.progressId,
        if validateAnswer userAnswer (expectedAnswer s word)
            (verbFlagFor s word) = ValidationResult.correct then 2 else 1,
        if validateAnswer userAnswer (expectedAnswer s word)
            (verbFlagFor s word) = ValidationResult.correct then 1 else 0,
        now,
        if word.isNew then some now else none⟩] ∧
      (if validateAnswer userAnswer (expectedAnswer s word)
          (verbFlagFor s word) = ValidationResult.correct then 2 else 1) ≠ 0 := by
  constructor
  · simp only [submitAnswer, hword]
    rw [if_neg hres, hbox]
    by_cases hv : validateAnswer userAnswer (expectedAnswer s word)
        (verbFlagFor s word) = ValidationResult.correct
    · simp [hv, getNewBox]
    · simp [hv, getNewBox]
  · by_cases hv : validateAnswer userAnswer (expectedAnswer s word)
        (verbFlagFor s word) = ValidationResult.correct
    · simp [hv]
    · simp [hv]

/-- C10 witness: a box-0 entry answered wrongly is written back at box 1
(and would be written at box 2 if correct), never box 0. -/
theorem submitAnswer_box_zero_write_witness :
    (submitAnswer
        ⟨1, .en_to_tr, .quick, "all",
          [⟨7, 3, ['h', 'a', 'p', 'p', 'y'], ['m', 'u', 't', 'l', 'u'],
            "noun", none, 0, 0, 0, true⟩], 0, [], 0⟩
        ['x', 'y', 'z'] false 99).progressWrites =
      [⟨7, 1, 0, 99, some 99⟩] := by
  have h := submitAnswer_box_zero_write
    ⟨1, .en_to_tr, .quick, "all",
      [⟨7, 3, ['h', 'a', 'p', 'p', 'y'], ['m', 'u', 't', 'l', 'u'],
        "noun", none, 0, 0, 0, true⟩], 0, [], 0⟩
    ⟨7, 3, ['h', 'a', 'p', 'p', 'y'], ['m', 'u', 't', 'l', 'u'],
      "noun", none, 0, 0, 0, true⟩
    ['x', 'y', 'z'] false 99 rfl rfl (by decide)
  rw [h.1]
  decide

/-! ## Claim C9: `weak_words` and box-0 words -/

/-- C9 counterexample: a state satisfying the claim's hypotheses — no words
in boxes 1-2, no due working-set word (the only working-set word sits in
box 5 with counter 1), and one never-seen word — for which the `weak_words`
selection is nonetheless nonempty: the working-set expansion that runs
before the branch (success rate 100% ≥ 60%) promotes the box-0 word to
box 1, where it is served as a due fallback. -/
theorem selectWordsForSession_weak_words_counterexample :
    (∀ p ∈ (⟨[⟨1, ['c', 'a', 't'], ['k', 'e', 'd', 'i'], "noun", none, 0⟩,
          ⟨2, ['d', 'o', 'g'], ['k', 'o', 'p', 'e', 'k'], "noun", none, 1⟩],
        [⟨1, 1, 1, .en_to_tr, 5, 10, 10, some 50, some 1, 1⟩,
          ⟨2, 1, 1, .tr_to_en, 5, 10, 10, some 50, some 1, 1⟩,
          ⟨3, 1, 2, .en_to_tr, 0, 0, 0, none, none, 0⟩,
          ⟨4, 1, 2, .tr_to_en, 0, 0, 0, none, none, 0⟩], 5⟩ : Db).progress,
      p.userId = 1 → p.leitnerBox ≠ 1 ∧ p.leitnerBox ≠ 2) ∧
    (∀ r ∈ getWorkingSet
        ⟨[⟨1, ['c', 'a', 't'], ['k', 'e', 'd', 'i'], "noun", none, 0⟩,
          ⟨2, ['d', 'o', 'g'], ['k', 'o', 'p', 'e', 'k'], "noun", none, 1⟩],
        [⟨1, 1, 1, .en_to_tr, 5, 10, 10, some 50, some 1, 1⟩,
          ⟨2, 1, 1, .tr_to_en, 5, 10, 10, some 50, some 1, 1⟩,
          ⟨3, 1, 2, .en_to_tr, 0, 0, 0, none, none, 0⟩,
          ⟨4, 1, 2, .tr_to_en, 0, 0, 0, none, none, 0⟩], 5⟩ 1 .en_to_tr,
      isWordDueForReview r.p defaultConfig.boxIntervals = false) ∧
    (∃ p ∈ (⟨[⟨1, ['c', 'a', 't'], ['k', 'e', 'd', 'i'], "noun", none, 0⟩,
          ⟨2, ['d', 'o', 'g'], ['k', 'o', 'p', 'e', 'k'], "noun", none, 1⟩],
        [⟨1, 1, 1, .en_to_tr, 5, 10, 10, some 50, some 1, 1⟩,
          ⟨2, 1, 1, .tr_to_en, 5, 10, 10, some 50, some 1, 1⟩,
          ⟨3, 1, 2, .en_to_tr, 0, 0, 0, none, none, 0⟩,
          ⟨4, 1, 2, .tr_to_en, 0, 0, 0, none, none, 0⟩], 5⟩ : Db).progress,
      p.userId = 1 ∧ p.leitnerBox = 0) ∧
    (selectWordsForSession defaultConfig idOracle
        ⟨[⟨1, ['c', 'a', 't'], ['k', 'e', 'd', 'i'], "noun", none, 0⟩,
          ⟨2, ['d', 'o', 'g'], ['k', 'o', 'p', 'e', 'k'], "noun", none, 1⟩],
        [⟨1, 1, 1, .en_to_tr, 5, 10, 10, some 50, some 1, 1⟩,
          ⟨2, 1, 1, .tr_to_en, 5, 10, 10, some 50, some 1, 1⟩,
          ⟨3, 1, 2, .en_to_tr, 0, 0, 0, none, none, 0⟩,
          ⟨4, 1, 2, .tr_to_en, 0, 0, 0, none, none, 0⟩], 5⟩
        1 .weak_words "all" .en_to_tr 77).2.length = 1 := by
  refine ⟨by decide, by decide, by decide, by decide⟩

/-- C9 (amended): in a state with no words in boxes 1-2, no due working-set
word, and at least one never-seen word, the `weak_words` selection is empty
provided the pre-branch working-set expansion does not fire (nonempty
working set whose success rate is below 60%); the `weak_words` branch
itself never consults box-0 words, but the expansion can promote them into
box 1 first (see the counterexample). -/
theorem selectWordsForSession_weak_words_empty
    (cfg : Config) (oracle : Oracle) (db : Db) (userId now : Nat)
    (categoryFilter : String) (direction : Direction)
    (hshuffle : ∀ l, (oracle.shuffle l).Perm l)
    (hbox12 : ∀ p ∈ db.progress, p.userId = userId →
      p.leitnerBox ≠ 1 ∧ p.leitnerBox ≠ 2)
    (hdue : ∀ r ∈ getWorkingSet db userId direction,
      isWordDueForReview r.p cfg.boxIntervals = false)
    (hsize : getWorkingSetSize db userId ≠ 0)
    (hasked : workingSetAsked db userId ≠ 0)
    (hrate : 5 * workingSetCorrect db userId < 3 * workingSetAsked db userId)
    (hbox0 : ∃ p ∈ db.progress, p.userId = userId ∧ p.leitnerBox = 0) :
    (selectWordsForSession cfg oracle db userId .weak_words categoryFilter
      direction now).2 = [] := by
  have h1 : ensureProgressRecordsExist db userId = db := by
    unfold ensureProgressRecordsExist
    rw [if_neg ?_]
    unfold getWorkingSetSize at hsize
    have hnil : (db.progress.filter (fun p =>
        decide (p.userId = userId ∧ 0 < p.leitnerBox))) ≠ [] := by
      intro hcontra
      rw [hcontra] at hsize
      simp at hsize
    obtain ⟨p, hp⟩ := List.exists_mem_of_ne_nil _ hnil
    have hp' := List.mem_filter.mp hp
    have hpu : p.userId = userId := (of_decide_eq_true hp'.2).1
    intro hlen
    have : p ∈ db.progress.filter (fun p => p.userId == userId) :=
      List.mem_filter.mpr ⟨hp'.1, by simp [hpu]⟩
    rw [List.length_eq_zero.mp hlen] at this
    simp at this
  have h2 : shouldExpandWorkingSet db userId = .low := by
    unfold shouldExpandWorkingSet
    rw [if_neg hsize, if_neg hasked, if_neg (by omega)]
  have h3 : getWeakWords db userId direction
      (targetCountFor cfg .weak_words) = [] := by
    unfold getWeakWords
    have : db.progress.filter (fun p =>
        decide (p.userId = userId ∧ (p.leitnerBox = 1 ∨ p.leitnerBox = 2) ∧
          p.direction = direction ∧ p.lastAsked ≠ none)) = [] := by
      rw [List.filter_eq_nil_iff]
      intro p hp hdec
      obtain ⟨hu, hb, _, _⟩ := of_decide_eq_true hdec
      rcases hbox12 p hp hu with ⟨hb1, hb2⟩
      rcases hb with hb | hb
      · exact hb1 hb
      · exact hb2 hb
    rw [this]
    simp only [joinWords, List.filterMap_nil, sortByLe, List.foldr_nil,
      List.take_nil]
  have h4 : getWordsDueForReviewDynamic cfg db userId direction = [] := by
    unfold getWordsDueForReviewDynamic
    rw [List.filter_eq_nil_iff]
    intro r hr
    rw [hdue r hr]
    simp
  simp only [selectWordsForSession, h1, h2]
  simp only [h3, h4, List.length_nil, List.filter_nil, sortByLe,
    List.foldr_nil, List.take_nil, List.append_nil, List.nil_append, ite_self]
  exact (hshuffle []).eq_nil

/-- C9 witness: with the working-set word in box 4 (counter 1, so not due)
and a 50% success rate (no expansion), the `weak_words` selection is empty
even though a never-seen word exists. -/
theorem selectWordsForSession_weak_words_empty_witness :
    (selectWordsForSession defaultConfig idOracle
        ⟨[⟨1, ['c', 'a', 't'], ['k', 'e', 'd', 'i'], "noun", none, 0⟩,
          ⟨2, ['d', 'o', 'g'], ['k', 'o', 'p', 'e', 'k'], "noun", none, 1⟩],
        [⟨1, 1, 1, .en_to_tr, 4, 10, 5, some 50, some 1, 1⟩,
          ⟨2, 1, 1, .tr_to_en, 4, 10, 5, some 50, some 1, 1⟩,
          ⟨3, 1, 2, .en_to_tr, 0, 0, 0, none, none, 0⟩,
          ⟨4, 1, 2, .tr_to_en, 0, 0, 0, none, none, 0⟩], 5⟩
        1 .weak_words "all" .en_to_tr 77).2 = [] :=
  selectWordsForSession_weak_words_empty defaultConfig idOracle
    ⟨[⟨1, ['c', 'a', 't'], ['k', 'e', 'd', 'i'], "noun", none, 0⟩,
      ⟨2, ['d', 'o', 'g'], ['k', 'o', 'p', 'e', 'k'], "noun", none, 1⟩],
    [⟨1, 1, 1, .en_to_tr, 4, 10, 5, some 50, some 1, 1⟩,
      ⟨2, 1, 1, .tr_to_en, 4, 10, 5, some 50, some 1, 1⟩,
      ⟨3, 1, 2, .en_to_tr, 0, 0, 0, none, none, 0⟩,
      ⟨4, 1, 2, .tr_to_en, 0, 0, 0, none, none, 0⟩], 5⟩
    1 77 "all" .en_to_tr (fun l => List.Perm.refl l) (by decide) (by decide)
    (by decide) (by decide) (by decide) (by decide)

/-! ## Claim C7: the `NoWordsAvailable` flag -/

/-- C7: evaluation at the failing input.  The user has two words; word 1 is
fully mastered (box 5 in both directions) but not due (counter 1), word 2
was never seen (box 0); the 50% success rate blocks expansion, so a
`weak_words` start fails with zero words — and the code sets the
`allMastered` flag (`fullyMastered > 0`) to `true` even though only 1 of
the user's 2 words is fully mastered.  The flag the claim (and the rest of
the code, e.g. `endSession`) describes would require
`fullyMastered = totalWords`. -/
theorem startSession_allMastered_flag_divergence :
    (startSession defaultConfig idOracle
        ⟨[⟨1, ['c', 'a', 't'], ['k', 'e', 'd', 'i'], "noun", none, 0⟩,
          ⟨2, ['d', 'o', 'g'], ['k', 'o', 'p', 'e', 'k'], "noun", none, 1⟩],
        [⟨1, 1, 1, .en_to_tr, 5, 10, 5, some 50, some 1, 1⟩,
          ⟨2, 1, 1, .tr_to_en, 5, 10, 5, some 50, some 1, 1⟩,
          ⟨3, 1, 2, .en_to_tr, 0, 0, 0, none, none, 0⟩,
          ⟨4, 1, 2, .tr_to_en, 0, 0, 0, none, none, 0⟩], 5⟩
        1 .weak_words "all" true 77).2 = .noWords true ∧
      (startSession defaultConfig idOracle
        ⟨[⟨1, ['c', 'a', 't'], ['k', 'e', 'd', 'i'], "noun", none, 0⟩,
          ⟨2, ['d', 'o', 'g'], ['k', 'o', 'p', 'e', 'k'], "noun", none, 1⟩],
        [⟨1, 1, 1, .en_to_tr, 5, 10, 5, some 50, some 1, 1⟩,
          ⟨2, 1, 1, .tr_to_en, 5, 10, 5, some 50, some 1, 1⟩,
          ⟨3, 1, 2, .en_to_tr, 0, 0, 0, none, none, 0⟩,
          ⟨4, 1, 2, .tr_to_en, 0, 0, 0, none, none, 0⟩], 5⟩
        1 .weak_words "all" false 77).2 = .noWords true ∧
      fullyMastered
        ⟨[⟨1, ['c', 'a', 't'], ['k', 'e', 'd', 'i'], "noun", none, 0⟩,
          ⟨2, ['d', 'o', 'g'], ['k', 'o', 'p', 'e', 'k'], "noun", none, 1⟩],
        [⟨1, 1, 1, .en_to_tr, 5, 10, 5, some 50, some 1, 1⟩,
          ⟨2, 1, 1, .tr_to_en, 5, 10, 5, some 50, some 1, 1⟩,
          ⟨3, 1, 2, .en_to_tr, 0, 0, 0, none, none, 0⟩,
          ⟨4, 1, 2, .tr_to_en, 0, 0, 0, none, none, 0⟩], 5⟩ 1 = 1 ∧
      totalWordsStat
        ⟨[⟨1, ['c', 'a', 't'], ['k', 'e', 'd', 'i'], "noun", none, 0⟩,
          ⟨2, ['d', 'o', 'g'], ['k', 'o', 'p', 'e', 'k'], "noun", none, 1⟩],
        [⟨1, 1, 1, .en_to_tr, 5, 10, 5, some 50, some 1, 1⟩,
          ⟨2, 1, 1, .tr_to_en, 5, 10, 5, some 50, some 1, 1⟩,
          ⟨3, 1, 2, .en_to_tr, 0, 0, 0, none, none, 0⟩,
          ⟨4, 1, 2, .tr_to_en, 0, 0, 0, none, none, 0⟩], 5⟩ 1 = 2 := by
  refine ⟨by decide, by decide, by decide, by decide⟩

/-! ## Claim C1: the delayed-retry queue -/

/-- C1: in the delayed-retry session model, an incorrect resolution of an
entry with `retryCount < 2` splices its clone — `isRetryAttempt = true`,
`retryCount + 1` — exactly 4 positions ahead of the cursor (at the end of
the queue when fewer than 4 positions remain) and advances the cursor; and
along any run starting from a fresh queue (all `retryCount = 0`), no entry's
`retryCount` ever exceeds 2. -/
theorem retryStep_splice_and_invariant :
    (∀ (s : RetryQueueState) (e : QueueEntry),
      s.queue[s.cursor]? = some e → e.retryCount < 2 →
      (retryStep s .incorrect).queue =
        spliceAt (min (s.cursor + 4) s.queue.length)
          { e with isRetryAttempt := true, retryCount := e.retryCount + 1 }
          s.queue ∧
        (retryStep s .incorrect).cursor = s.cursor + 1) ∧
    (∀ (init : RetryQueueState) (rs : List Resolution),
      (∀ e ∈ init.queue, e.retryCount = 0) →
      ∀ e ∈ (retryRun init rs).queue, e.retryCount ≤ 2) := by
  have hstep : ∀ (s : RetryQueueState) (r : Resolution),
      (∀ e ∈ s.queue, e.retryCount ≤ 2) →
      ∀ e ∈ (retryStep s r).queue, e.retryCount ≤ 2 := by
    intro s r hinv e he
    unfold retryStep at he
    rcases hq : s.queue[s.cursor]? with _ | e0
    · rw [hq] at he
      exact hinv e he
    · rw [hq] at he
      simp only at he
      by_cases hc : r = Resolution.incorrect ∧ e0.retryCount < 2
      · rw [if_pos hc] at he
        unfold spliceAt at he
        rcases List.mem_append.mp he with h | h
        · exact hinv e (List.take_subset _ _ h)
        · rcases List.mem_cons.mp h with h | h
          · rw [h]
            simp only
            omega
          · exact hinv e (List.drop_subset _ _ h)
      · rw [if_neg hc] at he
        exact hinv e he
  constructor
  · intro s e hq hlt
    unfold retryStep
    rw [hq]
    simp only
    refine ⟨?_, trivial⟩
    rw [if_pos ⟨trivial, hlt⟩]
  · intro init rs hinit
    have h0 : ∀ e ∈ init.queue, e.retryCount ≤ 2 := by
      intro e he
      rw [hinit e he]
      omega
    clear hinit
    induction rs generalizing init with
    | nil => exact h0
    | cons r rs ih =>
      exact ih (retryStep init r) (hstep init r h0)

/-- C1 witness: a five-entry fresh queue; the first entry answered wrong is
recloned at position 4 (cursor 0 + 4), and after five incorrect resolutions
every entry's `retryCount` is at most 2. -/
theorem retryStep_splice_and_invariant_witness :
    (retryStep
        ⟨[⟨1, false, 0⟩, ⟨2, false, 0⟩, ⟨3, false, 0⟩, ⟨4, false, 0⟩,
          ⟨5, false, 0⟩], 0⟩ .incorrect).queue =
      spliceAt 4 ⟨1, true, 1⟩
        [⟨1, false, 0⟩, ⟨2, false, 0⟩, ⟨3, false, 0⟩, ⟨4, false, 0⟩,
          ⟨5, false, 0⟩] ∧
      (∀ e ∈ (retryRun
          ⟨[⟨1, false, 0⟩, ⟨2, false, 0⟩, ⟨3, false, 0⟩, ⟨4, false, 0⟩,
            ⟨5, false, 0⟩], 0⟩
          [.incorrect, .incorrect, .incorrect, .incorrect, .incorrect,
            .incorrect, .incorrect]).queue,
        e.retryCount ≤ 2) := by
  constructor
  · exact (retryStep_splice_and_invariant.1
      ⟨[⟨1, false, 0⟩, ⟨2, false, 0⟩, ⟨3, false, 0⟩, ⟨4, false, 0⟩,
        ⟨5, false, 0⟩], 0⟩ ⟨1, false, 0⟩ rfl (by decide)).1
  · exact retryStep_splice_and_invariant.2
      ⟨[⟨1, false, 0⟩, ⟨2, false, 0⟩, ⟨3, false, 0⟩, ⟨4, false, 0⟩,
        ⟨5, false, 0⟩], 0⟩
      [.incorrect, .incorrect, .incorrect, .incorrect, .incorrect,
        .incorrect, .incorrect] (by decide)

/-! ## Claim C2: the mixed-direction session start -/

/-- Auxiliary: `mixedCombine` always returns a prefix of each direction's
selection, and its combined length is the target capped by the total the
two directions produced. -/
theorem mixedCombine_prefix_min_length (enWords trWords : List JoinedRow)
    (t : Nat) (extra : Bool) :
    ∃ a b : Nat,
      mixedCombine enWords trWords t extra =
        enWords.take a ++ trWords.take b ∧
      (mixedCombine enWords trWords t extra).length =
        min t (enWords.length + trWords.length) := by
  have hsum : enTargetFor t extra + trTargetFor t extra = t := by
    unfold enTargetFor trTargetFor
    by_cases hm : 0 < t % 2 <;> cases extra <;> simp [hm] <;> omega
  simp only [mixedCombine]
  set enT := enTargetFor t extra with henT
  set trT := trTargetFor t extra with htrT
  by_cases hEn : enWords.length < enT
  · by_cases hTr : trT < trWords.length
    · have hc1 : 0 < enT - (enWords.take enT).length ∧
          trT < trWords.length := by
        rw [List.length_take]
        constructor
        · omega
        · exact hTr
      rw [if_pos hc1]
      have hc2 : ¬ (0 < trT - (trWords.take trT).length ∧
          enT < enWords.length) := by
        rintro ⟨_, hcontra⟩
        omega
      rw [if_neg hc2]
      refine ⟨enT, trT + (enT - (enWords.take enT).length), ?_, ?_⟩
      · rw [List.take_add]
      · simp only [List.length_append, List.length_take, List.length_drop]
        omega
    · have hc1 : ¬ (0 < enT - (enWords.take enT).length ∧
          trT < trWords.length) := by
        rintro ⟨_, hcontra⟩
        exact hTr hcontra
      rw [if_neg hc1]
      have hc2 : ¬ (0 < trT - (trWords.take trT).length ∧
          enT < enWords.length) := by
        rintro ⟨_, hcontra⟩
        omega
      rw [if_neg hc2]
      refine ⟨enT, trT, rfl, ?_⟩
      simp only [List.length_append, List.length_take]
      omega
  · have hc1 : ¬ (0 < enT - (enWords.take enT).length ∧
        trT < trWords.length) := by
      rintro ⟨hcontra, _⟩
      rw [List.length_take] at hcontra
      omega
    rw [if_neg hc1]
    by_cases hTr : trWords.length < trT
    · by_cases hEn2 : enT < enWords.length
      · have hc2 : 0 < trT - (trWords.take trT).length ∧
            enT < enWords.length := by
          rw [List.length_take]
          exact ⟨by omega, hEn2⟩
        rw [if_pos hc2]
        refine ⟨enT + (trT - (trWords.take trT).length), trT, ?_, ?_⟩
        · rw [List.take_add]
        · simp only [List.length_append, List.length_take, List.length_drop]
          omega
      · have hc2 : ¬ (0 < trT - (trWords.take trT).length ∧
            enT < enWords.length) := by
          rintro ⟨_, hcontra⟩
          exact hEn2 hcontra
        rw [if_neg hc2]
        refine ⟨enT, trT, rfl, ?_⟩
        simp only [List.length_append, List.length_take]
        omega
    · have hc2 : ¬ (0 < trT - (trWords.take trT).length ∧
          enT < enWords.length) := by
        rintro ⟨hcontra, _⟩
        rw [List.length_take] at hcontra
        omega
      rw [if_neg hc2]
      refine ⟨enT, trT, rfl, ?_⟩
      simp only [List.length_append, List.length_take]
      omega

/-- C2: the session start (its invocation of the Scheduler modelled from
the spec — the engine revision is missing from `src/`, see
`startSessionMixed`) builds its word queue by invoking the Scheduler's
mixed-direction selection.  That selection runs the single-direction
selection once per direction (the second call seeing the first call's
database mutations), with the target split evenly between the directions —
the two per-direction targets sum to the target count, an equal split for
an even count, the odd remainder going to the randomly chosen direction —
taking exactly each direction's share when both supply enough; in general
each direction contributes a prefix of its own selection, and the combined
length is the original target capped by what the two directions actually
produced, so a backfilled shortfall never exceeds the other direction's
supply. -/
theorem startSessionMixed_queue :
    (∀ (cfg : Config) (oracle : Oracle) (db : Db) (userId : Nat)
        (st : SessionType) (cat : String) (extra : Bool) (now : Nat),
      (selectWordsForSessionMixed cfg oracle db userId st cat
          (targetCountFor cfg st) extra now).2 ≠ [] →
      (startSessionMixed cfg oracle db userId st cat extra now).2 =
        MixedStartResult.started
          (selectWordsForSessionMixed cfg oracle db userId st cat
            (targetCountFor cfg st) extra now).2) ∧
      (∀ (cfg : Config) (oracle : Oracle) (db : Db) (userId : Nat)
          (st : SessionType) (cat : String) (t : Nat) (extra : Bool)
          (now : Nat),
        selectWordsForSessionMixed cfg oracle db userId st cat t extra now =
          ((selectWordsForSession cfg oracle
              (selectWordsForSession cfg oracle db userId st cat
                Direction.en_to_tr now).1 userId st cat Direction.tr_to_en
              now).1,
            oracle.shuffle
              (mixedCombine
                (selectWordsForSession cfg oracle db userId st cat
                  Direction.en_to_tr now).2
                (selectWordsForSession cfg oracle
                  (selectWordsForSession cfg oracle db userId st cat
                    Direction.en_to_tr now).1 userId st cat
                  Direction.tr_to_en now).2 t extra))) ∧
      (∀ (t : Nat) (extra : Bool),
        enTargetFor t extra + trTargetFor t extra = t ∧
          (t % 2 = 0 → enTargetFor t extra = trTargetFor t extra) ∧
          (0 < t % 2 → extra = true →
            enTargetFor t extra = trTargetFor t extra + 1) ∧
          (0 < t % 2 → extra = false →
            trTargetFor t extra = enTargetFor t extra + 1)) ∧
      (∀ (enWords trWords : List JoinedRow) (t : Nat) (extra : Bool),
        enTargetFor t extra ≤ enWords.length →
        trTargetFor t extra ≤ trWords.length →
        mixedCombine enWords trWords t extra =
          enWords.take (enTargetFor t extra) ++
            trWords.take (trTargetFor t extra)) ∧
      (∀ (enWords trWords : List JoinedRow) (t : Nat) (extra : Bool),
        ∃ a b : Nat,
          mixedCombine enWords trWords t extra =
            enWords.take a ++ trWords.take b ∧
          (mixedCombine enWords trWords t extra).length =
            min t (enWords.length + trWords.length)) ∧
      (∀ (cfg : Config) (oracle : Oracle) (db : Db) (userId : Nat)
          (st : SessionType) (cat : String) (t : Nat) (extra : Bool)
          (now : Nat),
        (∀ l, (oracle.shuffle l).Perm l) →
        (selectWordsForSessionMixed cfg oracle db userId st cat t extra
            now).2.length =
          min t
            ((selectWordsForSession cfg oracle db userId st cat
                Direction.en_to_tr now).2.length +
              (selectWordsForSession cfg oracle
                (selectWordsForSession cfg oracle db userId st cat
                  Direction.en_to_tr now).1 userId st cat
                Direction.tr_to_en now).2.length)) := by
  refine ⟨?_, ?_, ?_, ?_, mixedCombine_prefix_min_length, ?_⟩
  · intro cfg oracle db userId st cat extra now h
    simp only [startSessionMixed]
    rw [if_neg h]
  · intro cfg oracle db userId st cat t extra now
    rfl
  · intro t extra
    unfold enTargetFor trTargetFor
    cases extra <;> by_cases hm : 0 < t % 2 <;> simp [hm] <;> omega
  · intro enWords trWords t extra h1 h2
    simp only [mixedCombine, List.length_take]
    rw [Nat.min_eq_left h1, Nat.min_eq_left h2]
    simp
  · intro cfg oracle db userId st cat t extra now hshuffle
    obtain ⟨a, b, _, hlen⟩ := mixedCombine_prefix_min_length
      (selectWordsForSession cfg oracle db userId st cat .en_to_tr now).2
      (selectWordsForSession cfg oracle
        (selectWordsForSession cfg oracle db userId st cat .en_to_tr
          now).1 userId st cat .tr_to_en now).2 t extra
    have hdecomp : (selectWordsForSessionMixed cfg oracle db userId st cat
        t extra now).2 =
        oracle.shuffle
          (mixedCombine
            (selectWordsForSession cfg oracle db userId st cat
              Direction.en_to_tr now).2
            (selectWordsForSession cfg oracle
              (selectWordsForSession cfg oracle db userId st cat
                Direction.en_to_tr now).1 userId st cat Direction.tr_to_en
              now).2 t extra) := rfl
    rw [hdecomp, (hshuffle _).length_eq, hlen]

/-- C2 witness: at a state with one selectable word per direction, the
mixed session start's queue is the mixed selection (two entries, one per
direction), and the mixed selection's length is the target capped by the
supply: `min 5 (1 + 1) = 2`. -/
theorem startSessionMixed_queue_witness :
    (startSessionMixed defaultConfig idOracle
        ⟨[⟨1, ['c', 'a', 't'], ['k', 'e', 'd', 'i'], "noun", none, 0⟩],
          [⟨1, 1, 1, .en_to_tr, 1, 10, 0, some 5, some 1, 0⟩,
            ⟨2, 1, 1, .tr_to_en, 1, 10, 0, some 5, some 1, 0⟩], 3⟩
        1 .quick "all" true 77).2 =
      MixedStartResult.started
        (selectWordsForSessionMixed defaultConfig idOracle
          ⟨[⟨1, ['c', 'a', 't'], ['k', 'e', 'd', 'i'], "noun", none, 0⟩],
            [⟨1, 1, 1, .en_to_tr, 1, 10, 0, some 5, some 1, 0⟩,
              ⟨2, 1, 1, .tr_to_en, 1, 10, 0, some 5, some 1, 0⟩], 3⟩
          1 .quick "all" (targetCountFor defaultConfig .quick) true 77).2 ∧
      (selectWordsForSessionMixed defaultConfig idOracle
        ⟨[⟨1, ['c', 'a', 't'], ['k', 'e', 'd', 'i'], "noun", none, 0⟩],
          [⟨1, 1, 1, .en_to_tr, 1, 10, 0, some 5, some 1, 0⟩,
            ⟨2, 1, 1, .tr_to_en, 1, 10, 0, some 5, some 1, 0⟩], 3⟩
        1 .quick "all" 5 true 77).2.length = 2 := by
  constructor
  · exact startSessionMixed_queue.1 defaultConfig idOracle
      ⟨[⟨1, ['c', 'a', 't'], ['k', 'e', 'd', 'i'], "noun", none, 0⟩],
        [⟨1, 1, 1, .en_to_tr, 1, 10, 0, some 5, some 1, 0⟩,
          ⟨2, 1, 1, .tr_to_en, 1, 10, 0, some 5, some 1, 0⟩], 3⟩
      1 .quick "all" true 77 (by decide)
  · have h := startSessionMixed_queue.2.2.2.2.2 defaultConfig idOracle
      ⟨[⟨1, ['c', 'a', 't'], ['k', 'e', 'd', 'i'], "noun", none, 0⟩],
        [⟨1, 1, 1, .en_to_tr, 1, 10, 0, some 5, some 1, 0⟩,
          ⟨2, 1, 1, .tr_to_en, 1, 10, 0, some 5, some 1, 0⟩], 3⟩
      1 .quick "all" 5 true 77 (fun l => List.Perm.refl l)
    rw [h]
    decide
